import Mathlib

/-!
Verification of the command-routing and message-delivery core of
`kook_api.py` (classes `MessageSender` and `CommandHandler`).

Python dictionaries (`self.commands`, `self.aliases`, `self.permissions`,
the `results` mapping of `send_multiple`) are embedded as association
lists with Python-dict semantics: lookup finds the first entry with a
matching key, assignment overwrites the value of an existing key in
place (or appends a fresh entry), deletion removes the key.  Handlers
(`func` values stored in `self.commands`) are embedded as Lean functions
returning `Except String String`, where `Except.error e` models a Python
exception with message `e`.
-/

/-- Lookup in a Python-style dict: `d.get(k)` / `d[k]`. -/
def dictGet {V : Type} (d : List (String × V)) (k : String) : Option V :=
  match d with
  | [] => none
  | (k', v) :: rest => if k' = k then some v else dictGet rest k

/-- Assignment in a Python-style dict: `d[k] = v` (overwrite in place, else append). -/
def dictSet {V : Type} (d : List (String × V)) (k : String) (v : V) : List (String × V) :=
  match d with
  | [] => [(k, v)]
  | (k', v') :: rest => if k' = k then (k', v) :: rest else (k', v') :: dictSet rest k v

/-- Deletion in a Python-style dict: `del d[k]` (Python keys are unique; removing
every occurrence of the key is extensionally the same operation on such dicts). -/
def ddel {V : Type} (d : List (String × V)) (k : String) : List (String × V) :=
  match d with
  | [] => []
  | (k', v') :: rest => if k' = k then ddel rest k else (k', v') :: ddel rest k

/-- Membership test for a key: `k in d`. -/
def hasKey {V : Type} (d : List (String × V)) (k : String) : Bool :=
  d.any (fun p => p.1 = k)

/-- Strip whitespace from both ends of a character list. -/
def listTrim (l : List Char) : List Char :=
  ((l.dropWhile Char.isWhitespace).reverse.dropWhile Char.isWhitespace).reverse

/-- Python `str.strip()` (whitespace = space/tab/CR/LF; Python additionally
strips a few rarer whitespace characters, irrelevant here). -/
def pyStrip (s : String) : String := String.mk (listTrim s.data)

/-- Python `str.startswith(pfx)`. -/
def pyStartsWith (s pfx : String) : Bool := pfx.data.isPrefixOf s.data

/-- Python `s[n:]` (slicing counts characters, as Python does). -/
def pyDrop (s : String) (n : Nat) : String := String.mk (s.data.drop n)

/-- Python `str.lower()` (ASCII case mapping, which covers every name the
source lower-cases). -/
def pyLower (s : String) : String := String.mk (s.data.map Char.toLower)

/-- Python `len(s)` in characters. -/
def pyLen (s : String) : Nat := s.data.length

/-- Worker for `pySplit`: accumulate the current token (reversed) and the
finished tokens (reversed). -/
def splitWsGo (cur : List Char) (acc : List (List Char)) :
    List Char → List (List Char)
  | [] => if cur = [] then acc.reverse else (cur.reverse :: acc).reverse
  | c :: rest =>
    if c.isWhitespace then
      if cur = [] then splitWsGo [] acc rest
      else splitWsGo [] (cur.reverse :: acc) rest
    else splitWsGo (c :: cur) acc rest

/-- Python `str.split()` with no separator: split on whitespace runs, dropping
empty fragments. -/
def pySplit (s : String) : List String := (splitWsGo [] [] s.data).map String.mk

/-- Python `sep.join(parts)`. -/
def pyJoin (sep : String) : List String → String
  | [] => ""
  | [a] => a
  | a :: rest => a ++ sep ++ pyJoin sep rest

/-- A registered handler: called with `(args, raw_args)`, returns a string or
raises (modelled by `Except.error`). -/
def Handler : Type := List String → String → Except String String

/-- One entry of `self.commands` in `CommandHandler.register_command`. -/
structure CommandDef (H : Type) where
  func : H
  description : String
  usage : String
  permission_level : Int
  deriving DecidableEq

/-- The mutable state of a `CommandHandler` instance: command prefix and the
three dicts `commands`, `aliases`, `permissions`. -/
structure CHState (H : Type) where
  command_pfx : String
  commands : List (String × CommandDef H)
  aliases : List (String × String)
  permissions : List (String × Int)
  deriving DecidableEq

/-- Caller identity (`user_info` dict): the two capability flags read by
`_check_permission` via `.get(..., False)`. -/
structure UserInfo where
  is_admin : Bool
  is_super_admin : Bool
  deriving DecidableEq

/-- The dict returned by `CommandHandler.parse_command`.  A key absent from the
Python dict is the field's default here (`valid := false` matches
`command_info.get('valid', False)`; `error` is an `Option`). -/
structure ParseResult where
  is_command : Bool
  valid : Bool := false
  command_name : String := ""
  original_name : String := ""
  args : List String := []
  raw_args : String := ""
  error : Option String := none
  deriving DecidableEq

/-- `CommandHandler.register_command`.  The `try` body performs only dict
assignments and logging, so it never raises: the function always mutates as
shown and returns `True`.  `aliases = None` is the empty list. -/
def register_command {H : Type} (st : CHState H) (name : String) (func : H)
    (description : String) (usage : String) (aliases : List String)
    (permission_level : Int) : CHState H × Bool :=
  let commands := dictSet st.commands name
    { func := func, description := description, usage := usage,
      permission_level := permission_level }
  let permissions := dictSet st.permissions name permission_level
  let aliasMap := aliases.foldl (fun m a => dictSet m a name) st.aliases
  ({ st with commands := commands, permissions := permissions, aliases := aliasMap }, true)

/-- `CommandHandler.unregister_command`.  If `name` is absent, returns `False`
without touching the state.  Otherwise deletes the command, deletes its
permission entry (were that entry missing, the `del` would raise `KeyError`,
caught by the `except`, returning `False` with the command already deleted),
and removes every alias whose target is `name`. -/
def unregister_command {H : Type} (st : CHState H) (name : String) :
    CHState H × Bool :=
  match dictGet st.commands name with
  | none => (st, false)
  | some _ =>
    let commands := ddel st.commands name
    match dictGet st.permissions name with
    | none => ({ st with commands := commands }, false)
    | some _ =>
      let permissions := ddel st.permissions name
      let aliasMap := st.aliases.filter (fun p => p.2 ≠ name)
      ({ st with commands := commands, permissions := permissions,
                 aliases := aliasMap }, true)

/-- `CommandHandler.parse_command`. -/
def parse_command {H : Type} (st : CHState H) (message : String) : ParseResult :=
  if ¬ pyStartsWith message st.command_pfx then { is_command := false }
  else
    let content := pyStrip (pyDrop message (pyLen st.command_pfx))
    if content = "" then { is_command := false }
    else
      let parts := pySplit content
      let command_name := pyLower (parts.headD "")
      let args := parts.tail
      let actual_command := (dictGet st.aliases command_name).getD command_name
      match dictGet st.commands actual_command with
      | none =>
        { is_command := true, valid := false, command_name := command_name,
          error := some ("未知命令: " ++ command_name) }
      | some _ =>
        { is_command := true, valid := true, command_name := actual_command,
          original_name := command_name, args := args,
          raw_args := pyJoin " " args }

/-- `CommandHandler._check_permission`. -/
def check_permission {H : Type} (st : CHState H) (command_name : String)
    (user_info : Option UserInfo) : Bool :=
  match dictGet st.permissions command_name with
  | none => false
  | some required_level =>
    if required_level = 0 then true
    else
      match user_info with
      | none => false
      | some u =>
        if required_level = 1 ∧ u.is_admin = true then true
        else if required_level = 2 ∧ u.is_super_admin = true then true
        else false

/-- `str(KeyError(k))` as produced by indexing a dict with a missing key. -/
def keyErrorMsg (k : String) : String := "\x27" ++ k ++ "\x27"

/-- `CommandHandler.execute_command`.  The `except` branch turns a handler
exception (or the `KeyError` from indexing `self.commands` with a missing
key) into the error string returned to the caller. -/
def execute_command (st : CHState Handler) (command_info : ParseResult)
    (user_info : Option UserInfo) : String :=
  if command_info.valid = false then
    command_info.error.getD "命令无效"
  else
    let command_name := command_info.command_name
    if check_permission st command_name user_info = false then
      "权限不足，无法执行此命令"
    else
      match dictGet st.commands command_name with
      | none =>
        "执行命令 \x27" ++ command_name ++ "\x27 时出错: " ++ keyErrorMsg command_name
      | some command_data =>
        match command_data.func command_info.args command_info.raw_args with
        | Except.ok result => result
        | Except.error e =>
          "执行命令 \x27" ++ command_name ++ "\x27 时出错: " ++ e

/-- `CommandHandler.__init__` followed by `_register_builtin_commands`:
empty dicts, then the three built-in registrations with the literal
arguments from the source. -/
def initState {H : Type} (command_pfx : String) (helpF statusF testF : H) :
    CHState H :=
  let st0 : CHState H :=
    { command_pfx := command_pfx, commands := [], aliases := [], permissions := [] }
  let st1 := (register_command st0 "help" helpF "显示帮助信息" "[命令名]"
    ["h", "帮助"] 0).1
  let st2 := (register_command st1 "status" statusF "显示机器人状态" ""
    ["状态", "stat"] 0).1
  (register_command st2 "test" testF "测试机器人连接" "" ["测试"] 0).1

/-- One runtime mutation of the registry. -/
inductive RegOp (H : Type) where
  | register (name : String) (func : H) (description : String) (usage : String)
      (aliases : List String) (permission_level : Int)
  | unregister (name : String)

/-- Apply one registry mutation. -/
def applyOp {H : Type} (st : CHState H) : RegOp H → CHState H
  | RegOp.register n f d u a p => (register_command st n f d u a p).1
  | RegOp.unregister n => (unregister_command st n).1

/-- Apply a sequence of registry mutations in order. -/
def runOps {H : Type} (st : CHState H) (ops : List (RegOp H)) : CHState H :=
  ops.foldl applyOp st

/-- The registry-consistency invariant (claim C9): every alias entry targets a
registered command, and `commands` and `permissions` hold the same keys. -/
def RegistryConsistent {H : Type} (st : CHState H) : Prop :=
  (∀ p : String × String, p ∈ st.aliases → hasKey st.commands p.2 = true) ∧
  (∀ k : String, hasKey st.commands k = hasKey st.permissions k)

/-- Outcome of one transport call (`requests.post` plus `response.json()`):
either a decoded response with its `code` field, or a raised exception. -/
inductive TransportResult where
  | response (code : Int) (message : String)
  | raised (e : String)

/-- The environment `MessageSender.send_text` runs in: the remote transport
(called with channel id and payload content) and the configured channel id
(`config_manager.get_channel_id()`). -/
structure SenderEnv where
  transport : String → String → TransportResult
  config_channel_id : Option String

/-- `MessageSender.send_text`.  Returns the boolean result together with the
list of transport calls made (channel id, payload content): empty when the
channel is unresolvable or the content is empty/whitespace, a single call
otherwise.  A transport exception still counts as a call. -/
def send_text (env : SenderEnv) (content : String) (channel_id : Option String) :
    Bool × List (String × String) :=
  let cid := match channel_id with
    | none => env.config_channel_id
    | some c => some c
  match cid with
  | none => (false, [])
  | some c =>
    if c = "" then (false, [])
    else if pyStrip content = "" then (false, [])
    else
      match env.transport c (pyStrip content) with
      | TransportResult.response code _ => (code = 0, [(c, pyStrip content)])
      | TransportResult.raised _ => (false, [(c, pyStrip content)])

/-- Accumulated outcome of `MessageSender.send_multiple`: the `results` dict,
the contents for which `send_text` was invoked (in order), and the transport
calls made (in order). -/
structure MultiResult where
  results : List (String × Bool)
  attempts : List String
  transport_log : List (String × String)

/-- Loop body of `MessageSender.send_multiple` (the `time.sleep(0.5)` pacing
has no effect on results and is not modelled). -/
def send_multiple_go (env : SenderEnv) (channel_id : Option String) :
    List String → MultiResult → MultiResult
  | [], acc => acc
  | m :: rest, acc =>
    if pyStrip m = "" then
      send_multiple_go env channel_id rest
        { acc with results := dictSet acc.results m false }
    else
      let r := send_text env m channel_id
      send_multiple_go env channel_id rest
        { results := dictSet acc.results m r.1,
          attempts := acc.attempts ++ [m],
          transport_log := acc.transport_log ++ r.2 }

/-- `MessageSender.send_multiple`. -/
def send_multiple (env : SenderEnv) (messages : List String)
    (channel_id : Option String) : MultiResult :=
  send_multiple_go env channel_id messages
    { results := [], attempts := [], transport_log := [] }

/-- Modelled from the spec (claim C4 wording): <<`isCommand`: bool — true iff
the trimmed message starts with the configured prefix and has non-empty
remainder>>; the remainder is what is left of the trimmed message after the
prefix is removed. -/
def spec_is_command (pfx message : String) : Bool :=
  pyStartsWith (pyStrip message) pfx && pyDrop (pyStrip message) (pyLen pfx) ≠ ""

/-- `pat` occurs as a contiguous substring of `s`. -/
def strContains (s pat : String) : Prop :=
  pat.toList <:+: s.toList

instance (s pat : String) : Decidable (strContains s pat) :=
  inferInstanceAs (Decidable (pat.toList <:+: s.toList))

/-- The lower-cased first token of a prefixed message, as computed by
`parse_command` before alias resolution (`parts[0].lower()`). -/
def tokenLower {H : Type} (st : CHState H) (message : String) : String :=
  pyLower ((pySplit (pyStrip (pyDrop message (pyLen st.command_pfx)))).headD "")

theorem dictGet_dictSet {V : Type} (d : List (String × V)) (k k' : String) (v : V) :
    dictGet (dictSet d k v) k' = if k = k' then some v else dictGet d k' := by
  induction d with
  | nil => simp [dictSet, dictGet]
  | cons p rest ih =>
    obtain ⟨ka, va⟩ := p
    by_cases h : ka = k
    · subst h
      by_cases h2 : ka = k'
      · subst h2; simp [dictSet, dictGet]
      · have hne : ¬ ka = k' := h2
        simp [dictSet, dictGet, hne]
    · by_cases h2 : ka = k'
      · subst h2
        have hne : ¬ k = ka := fun hh => h hh.symm
        simp [dictSet, dictGet, h, hne]
      · simp [dictSet, dictGet, h, h2, ih]

theorem dictGet_ddel {V : Type} (d : List (String × V)) (k k' : String) :
    dictGet (ddel d k) k' = if k = k' then none else dictGet d k' := by
  induction d with
  | nil => simp [ddel, dictGet]
  | cons p rest ih =>
    obtain ⟨ka, va⟩ := p
    by_cases h : ka = k
    · subst h
      by_cases h2 : ka = k'
      · subst h2; simp [ddel, dictGet, ih]
      · simp [ddel, dictGet, h2, ih]
    · by_cases h2 : ka = k'
      · subst h2
        have hne : ¬ k = ka := fun hh => h hh.symm
        simp [ddel, dictGet, h, hne, ih]
      · simp [ddel, dictGet, h, h2, ih]

theorem hasKey_cons {V : Type} (a : String) (b : V) (rest : List (String × V))
    (k : String) : hasKey ((a, b) :: rest) k = (decide (a = k) || hasKey rest k) := by
  simp [hasKey, List.any_cons]

theorem hasKey_dictSet {V : Type} (d : List (String × V)) (k k' : String) (v : V) :
    hasKey (dictSet d k v) k' = (decide (k = k') || hasKey d k') := by
  induction d with
  | nil => simp [dictSet, hasKey]
  | cons p rest ih =>
    obtain ⟨ka, va⟩ := p
    by_cases h : ka = k
    · subst h
      simp only [dictSet, if_pos rfl, hasKey_cons]
      cases Decidable.em (ka = k') with
      | inl h2 => simp [h2, hasKey_cons]
      | inr h2 => simp [h2, hasKey_cons]
    · simp only [dictSet, if_neg h, hasKey_cons, ih]
      cases decide (ka = k') <;> cases decide (k = k') <;> simp

theorem hasKey_ddel {V : Type} (d : List (String × V)) (k k' : String) :
    hasKey (ddel d k) k' = (!decide (k = k') && hasKey d k') := by
  induction d with
  | nil => simp [ddel, hasKey]
  | cons p rest ih =>
    obtain ⟨ka, va⟩ := p
    by_cases h : ka = k
    · subst h
      simp only [ddel, if_pos rfl, hasKey_cons, ih]
      cases Decidable.em (ka = k') with
      | inl h2 => subst h2; simp [ih]
      | inr h2 => simp [h2, ih]
    · simp only [ddel, if_neg h, hasKey_cons, ih]
      cases Decidable.em (k = k') with
      | inl h2 =>
        subst h2
        simp [h]
      | inr h2 => simp [h2]

theorem isSome_dictGet {V : Type} (d : List (String × V)) (k : String) :
    (dictGet d k).isSome = hasKey d k := by
  induction d with
  | nil => simp [dictGet, hasKey]
  | cons p rest ih =>
    obtain ⟨ka, va⟩ := p
    by_cases h : ka = k <;> simp [dictGet, hasKey, List.any_cons, h, ih]

theorem mem_dictSet {V : Type} {d : List (String × V)} {k : String} {v : V}
    {p : String × V} (hp : p ∈ dictSet d k v) : p ∈ d ∨ p = (k, v) := by
  induction d with
  | nil => simpa [dictSet] using hp
  | cons q rest ih =>
    obtain ⟨ka, va⟩ := q
    by_cases h : ka = k
    · subst h
      rw [dictSet, if_pos rfl, List.mem_cons] at hp
      rcases hp with h1 | h1
      · exact Or.inr h1
      · exact Or.inl (List.mem_cons_of_mem _ h1)
    · rw [dictSet, if_neg h, List.mem_cons] at hp
      rcases hp with h1 | h1
      · exact Or.inl (h1 ▸ List.mem_cons_self _ _)
      · rcases ih h1 with h2 | h2
        · exact Or.inl (List.mem_cons_of_mem _ h2)
        · exact Or.inr h2

theorem mem_foldl_dictSet {n : String} (l : List String)
    (m0 : List (String × String)) (p : String × String)
    (hp : p ∈ l.foldl (fun m a => dictSet m a n) m0) : p ∈ m0 ∨ p.2 = n := by
  induction l generalizing m0 with
  | nil => exact Or.inl hp
  | cons a rest ih =>
    simp only [List.foldl_cons] at hp
    rcases ih (dictSet m0 a n) hp with h1 | h1
    · rcases mem_dictSet h1 with h2 | h2
      · exact Or.inl h2
      · right; rw [h2]
    · exact Or.inr h1

theorem dictGet_mem {V : Type} {d : List (String × V)} {k : String} {v : V}
    (h : dictGet d k = some v) : (k, v) ∈ d := by
  induction d with
  | nil => simp [dictGet] at h
  | cons q rest ih =>
    obtain ⟨ka, va⟩ := q
    by_cases hk : ka = k
    · subst hk
      rw [dictGet, if_pos rfl] at h
      obtain rfl : va = v := Option.some.inj h
      exact List.mem_cons_self _ _
    · rw [dictGet, if_neg hk] at h
      exact List.mem_cons_of_mem _ (ih h)

theorem dictGet_filter {V : Type} {f : String × V → Bool} {d : List (String × V)}
    {k : String} {v : V} (h : dictGet (d.filter f) k = some v) : f (k, v) = true := by
  induction d with
  | nil => simp [dictGet] at h
  | cons q rest ih =>
    obtain ⟨ka, va⟩ := q
    by_cases hf : f (ka, va) = true
    · rw [List.filter_cons_of_pos hf] at h
      by_cases hk : ka = k
      · subst hk
        rw [dictGet, if_pos rfl] at h
        obtain rfl : va = v := Option.some.inj h
        exact hf
      · rw [dictGet, if_neg hk] at h
        exact ih h
    · rw [List.filter_cons_of_neg (by simpa using hf)] at h
      exact ih h

theorem register_preserves {H : Type} {st : CHState H} (hc : RegistryConsistent st)
    (n : String) (f : H) (de us : String) (al : List String) (p : Int) :
    RegistryConsistent (register_command st n f de us al p).1 := by
  obtain ⟨ha, hk⟩ := hc
  constructor
  · intro q hq
    simp only [register_command] at hq
    rcases mem_foldl_dictSet al st.aliases q hq with h1 | h1
    · have h2 := ha q h1
      simp only [register_command, hasKey_dictSet, h2]
      simp
    · simp only [register_command, hasKey_dictSet, h1]
      simp
  · intro k
    simp only [register_command, hasKey_dictSet, hk k]

theorem unregister_preserves {H : Type} {st : CHState H} (hc : RegistryConsistent st)
    (n : String) : RegistryConsistent (unregister_command st n).1 := by
  obtain ⟨ha, hk⟩ := hc
  cases hg : dictGet st.commands n with
  | none =>
    simp only [unregister_command, hg]
    exact ⟨ha, hk⟩
  | some cd =>
    have hsome : hasKey st.permissions n = true := by
      rw [← hk n, ← isSome_dictGet, hg]
      rfl
    cases hp : dictGet st.permissions n with
    | none =>
      rw [← isSome_dictGet, hp] at hsome
      simp at hsome
    | some lv =>
      simp only [unregister_command, hg, hp]
      constructor
      · intro q hq
        simp only [List.mem_filter] at hq
        obtain ⟨hq1, hq2⟩ := hq
        have hqa := ha q hq1
        have hne : ¬ n = q.2 := fun hh => (by simpa using hq2 : q.2 ≠ n) hh.symm
        rw [hasKey_ddel, hqa]
        simp [hne]
      · intro k
        rw [hasKey_ddel, hasKey_ddel, hk k]

theorem applyOp_preserves {H : Type} {st : CHState H} (hc : RegistryConsistent st)
    (op : RegOp H) : RegistryConsistent (applyOp st op) := by
  cases op with
  | register n f d u a p => exact register_preserves hc n f d u a p
  | unregister n => exact unregister_preserves hc n

theorem runOps_preserves {H : Type} (ops : List (RegOp H)) (st : CHState H)
    (hc : RegistryConsistent st) : RegistryConsistent (runOps st ops) := by
  induction ops generalizing st with
  | nil => exact hc
  | cons op rest ih => exact ih (applyOp st op) (applyOp_preserves hc op)

theorem empty_consistent {H : Type} (pfx : String) :
    RegistryConsistent
      ({ command_pfx := pfx, commands := [], aliases := [], permissions := [] } :
        CHState H) := by
  constructor
  · intro q hq
    simp at hq
  · intro k
    rfl

/-- The registry right after construction with prefix `"!"` (handlers erased
to `Unit`, which none of the registry-structure claims inspect). -/
def builtinState : CHState Unit := initState "!" () () ()

theorem str_data_append (a b : String) : (a ++ b).data = a.data ++ b.data := rfl

theorem strContains_mid (pre mid post : String) :
    strContains (pre ++ mid ++ post) mid := by
  refine ⟨pre.data, post.data, ?_⟩
  simp [strContains, str_data_append, String.toList]

theorem strContains_right (pre mid : String) : strContains (pre ++ mid) mid := by
  have h := strContains_mid pre mid ""
  simpa using h

/-- C1: permission gating of command execution.  For a command registered at
tier 0 the check always passes; at tier 1 it passes iff a caller is supplied
with `is_admin` true; at tier 2 iff a caller is supplied with
`is_super_admin` true (so a super-admin without `is_admin` is rejected by a
tier-1 command, and an absent caller passes only tier 0); and whenever the
check fails on a valid invocation, `execute_command` returns the fixed
insufficient-permission string. -/
theorem c1_permission_gating (st : CHState Handler) (name : String)
    (caller : Option UserInfo) :
    (dictGet st.permissions name = some 0 →
      check_permission st name caller = true) ∧
    (dictGet st.permissions name = some 1 →
      (check_permission st name caller = true ↔
        ∃ u, caller = some u ∧ u.is_admin = true)) ∧
    (dictGet st.permissions name = some 2 →
      (check_permission st name caller = true ↔
        ∃ u, caller = some u ∧ u.is_super_admin = true)) ∧
    (∀ inv : ParseResult, inv.valid = true →
      check_permission st inv.command_name caller = false →
      execute_command st inv caller = "权限不足，无法执行此命令") := by
  refine ⟨?_, ?_, ?_, ?_⟩
  · intro h
    simp [check_permission, h]
  · intro h
    cases caller with
    | none => simp [check_permission, h]
    | some u =>
      cases hu : u.is_admin with
      | true =>
        simp only [check_permission, h]
        norm_num [hu]
      | false =>
        simp only [check_permission, h]
        norm_num [hu]
  · intro h
    cases caller with
    | none => simp [check_permission, h]
    | some u =>
      cases hu : u.is_super_admin with
      | true =>
        simp only [check_permission, h]
        norm_num [hu]
      | false =>
        simp only [check_permission, h]
        norm_num [hu]
  · intro inv hv hcp
    simp [execute_command, hv, hcp]

/-- Concrete registry over real handlers used to instantiate the execution
theorems: tiers 0, 1, 2 plus a handler that raises. -/
def c1State : CHState Handler :=
  { command_pfx := "!",
    commands :=
      [("a", { func := fun _ _ => Except.ok "ra", description := "",
               usage := "", permission_level := 0 }),
       ("b", { func := fun _ _ => Except.ok "rb", description := "",
               usage := "", permission_level := 1 }),
       ("c", { func := fun _ _ => Except.ok "rc", description := "",
               usage := "", permission_level := 2 }),
       ("x", { func := fun _ _ => Except.error "boom", description := "",
               usage := "", permission_level := 0 })],
    aliases := [],
    permissions := [("a", 0), ("b", 1), ("c", 2), ("x", 0)] }

theorem c1_permission_gating_witness :
    check_permission c1State "a" none = true ∧
    check_permission c1State "b" (some { is_admin := true, is_super_admin := false }) = true ∧
    check_permission c1State "b" (some { is_admin := false, is_super_admin := true }) = false ∧
    check_permission c1State "c" (some { is_admin := false, is_super_admin := true }) = true ∧
    execute_command c1State { is_command := true, valid := true, command_name := "b" }
      (some { is_admin := false, is_super_admin := true }) = "权限不足，无法执行此命令" := by
  refine ⟨?_, ?_, ?_, ?_, ?_⟩
  · exact (c1_permission_gating c1State "a" none).1 rfl
  · exact ((c1_permission_gating c1State "b"
      (some { is_admin := true, is_super_admin := false })).2.1 rfl).mpr
      ⟨{ is_admin := true, is_super_admin := false }, rfl, rfl⟩
  · have h := (c1_permission_gating c1State "b"
      (some { is_admin := false, is_super_admin := true })).2.1 rfl
    cases hc : check_permission c1State "b"
        (some { is_admin := false, is_super_admin := true }) with
    | false => rfl
    | true =>
      obtain ⟨u, hu, ha⟩ := h.mp hc
      obtain rfl : ({ is_admin := false, is_super_admin := true } : UserInfo) = u :=
        Option.some.inj hu
      simp at ha
  · exact ((c1_permission_gating c1State "c"
      (some { is_admin := false, is_super_admin := true })).2.2.1 rfl).mpr
      ⟨{ is_admin := false, is_super_admin := true }, rfl, rfl⟩
  · exact (c1_permission_gating c1State "b"
      (some { is_admin := false, is_super_admin := true })).2.2.2 _ rfl (by decide)

/-- C2: handler failure containment.  For any invocation that is valid and
passes the permission check, if the registered handler raises (returns
`Except.error e`), `execute_command` returns normally with a string naming
the executed command and the failure description — the failure never
propagates (the embedding is a total function into `String`, and the error
branch is proved to return the formatted message). -/
theorem c2_handler_error_contained (st : CHState Handler) (inv : ParseResult)
    (caller : Option UserInfo) (cd : CommandDef Handler) (e : String)
    (hv : inv.valid = true)
    (hp : check_permission st inv.command_name caller = true)
    (hc : dictGet st.commands inv.command_name = some cd)
    (he : cd.func inv.args inv.raw_args = Except.error e) :
    execute_command st inv caller =
      "执行命令 \x27" ++ inv.command_name ++ "\x27 时出错: " ++ e ∧
    strContains (execute_command st inv caller) inv.command_name ∧
    strContains (execute_command st inv caller) e := by
  have h1 : execute_command st inv caller =
      "执行命令 \x27" ++ inv.command_name ++ "\x27 时出错: " ++ e := by
    simp [execute_command, hv, hp, hc, he]
  refine ⟨h1, ?_, ?_⟩
  · rw [h1]
    have h2 := strContains_mid "执行命令 \x27" inv.command_name ("\x27 时出错: " ++ e)
    have h3 : "执行命令 \x27" ++ inv.command_name ++ ("\x27 时出错: " ++ e) =
        "执行命令 \x27" ++ inv.command_name ++ "\x27 时出错: " ++ e := by
      simp [String.append_assoc]
    rwa [h3] at h2
  · rw [h1]
    exact strContains_right ("执行命令 \x27" ++ inv.command_name ++ "\x27 时出错: ") e

theorem c2_handler_error_contained_witness :
    execute_command c1State { is_command := true, valid := true, command_name := "x" }
      none = "执行命令 \x27x\x27 时出错: boom" := by
  have h := c2_handler_error_contained c1State
    { is_command := true, valid := true, command_name := "x" } none
    { func := fun _ _ => Except.error "boom", description := "",
      usage := "", permission_level := 0 } "boom"
    rfl (by decide) rfl rfl
  exact h.1

/-- C10: stale invocation.  A `valid=true` invocation whose command name is no
longer in the registry (both maps, as `unregister_command` leaves them) is
denied by the permission check, and `execute_command` returns the fixed
insufficient-permission string without ever indexing the commands map (the
returned value is the permission-denied branch, which precedes the lookup). -/
theorem c10_stale_invocation (st : CHState Handler) (inv : ParseResult)
    (caller : Option UserInfo) (hv : inv.valid = true)
    (_hc : dictGet st.commands inv.command_name = none)
    (hp : dictGet st.permissions inv.command_name = none) :
    check_permission st inv.command_name caller = false ∧
    execute_command st inv caller = "权限不足，无法执行此命令" := by
  have h1 : check_permission st inv.command_name caller = false := by
    simp [check_permission, hp]
  exact ⟨h1, by simp [execute_command, hv, h1]⟩

theorem c10_stale_invocation_witness :
    check_permission c1State "gone" none = false ∧
    execute_command c1State { is_command := true, valid := true, command_name := "gone" }
      none = "权限不足，无法执行此命令" :=
  c10_stale_invocation c1State
    { is_command := true, valid := true, command_name := "gone" } none rfl rfl rfl

/-- C6: structural invariant of `parse_command` results: `valid` implies
`is_command`, and a present `error` implies `is_command` and not `valid`. -/
theorem c6_parse_invariant {H : Type} (st : CHState H) (msg : String) :
    ((parse_command st msg).valid = true → (parse_command st msg).is_command = true) ∧
    ((parse_command st msg).error ≠ none →
      (parse_command st msg).is_command = true ∧ (parse_command st msg).valid = false) := by
  unfold parse_command
  by_cases h1 : pyStartsWith msg st.command_pfx = true
  · by_cases h2 : pyStrip (pyDrop msg (pyLen st.command_pfx)) = ""
    · simp [h1, h2]
    · simp only [h1, h2]
      simp
      split <;> simp
  · simp [h1]

theorem c6_parse_invariant_witness :
    (parse_command builtinState "!unknowncmd").is_command = true ∧
    (parse_command builtinState "!unknowncmd").valid = false := by
  exact (c6_parse_invariant builtinState "!unknowncmd").2 (by decide)

/-- C4 counterexample: with the prefix `"!"`, the message `" !help"` (leading
space) trims to a string that starts with the prefix and has the non-empty
remainder `"help"`, so the claim requires `isCommand = true`; the code checks
the untrimmed message against the prefix and returns `is_command = false`. -/
theorem c4_cex :
    builtinState.command_pfx = "!" ∧
    spec_is_command "!" " !help" = true ∧
    (parse_command builtinState " !help").is_command = false := by
  refine ⟨rfl, by decide, by decide⟩

/-- C4 amended: `is_command` is true iff the message itself (no trimming)
starts with the configured prefix and the remainder after the prefix, once
stripped, is non-empty. -/
theorem c4_is_command_iff {H : Type} (st : CHState H) (msg : String) :
    (parse_command st msg).is_command = true ↔
      (pyStartsWith msg st.command_pfx = true ∧
       pyStrip (pyDrop msg (pyLen st.command_pfx)) ≠ "") := by
  unfold parse_command
  by_cases h1 : pyStartsWith msg st.command_pfx = true
  · by_cases h2 : pyStrip (pyDrop msg (pyLen st.command_pfx)) = ""
    · simp [h1, h2]
    · simp only [h1, h2]
      simp
      split <;> simp [h1, h2]
  · simp [h1]

theorem c4_is_command_iff_witness :
    (parse_command builtinState "!help").is_command = true :=
  (c4_is_command_iff builtinState "!help").mpr ⟨by decide, by decide⟩

/-- C5 counterexample: `parse_command` lower-cases the first token before
building the error string, so for `"!Foo"` (unregistered) the error names
`"foo"`, not the token `"Foo"` as the user typed it. -/
theorem c5_cex :
    (parse_command builtinState "!Foo").is_command = true ∧
    (parse_command builtinState "!Foo").valid = false ∧
    (parse_command builtinState "!Foo").error = some "未知命令: foo" ∧
    ¬ strContains "未知命令: foo" "Foo" := by
  refine ⟨by decide, by decide, by decide, by decide⟩

/-- C5 amended: when a prefixed message does not resolve to a registered
command, the error string names the lower-cased first token as it stood
before alias resolution (not the alias-resolved form); for an already
lower-case token such as `"unknown"` this is the token exactly as typed, so
`ParseCommand("!unknown")` yields `valid = false` with an error containing
the literal `"unknown"`. -/
theorem c5_unknown_error {H : Type} (st : CHState H) (msg : String)
    (hic : (parse_command st msg).is_command = true)
    (hv : (parse_command st msg).valid = false) :
    ((parse_command st msg).error = some ("未知命令: " ++ tokenLower st msg) ∧
     strContains ((parse_command st msg).error.getD "") (tokenLower st msg)) ∧
    ((parse_command builtinState "!unknown").valid = false ∧
     (parse_command builtinState "!unknown").error = some "未知命令: unknown" ∧
     strContains "未知命令: unknown" "unknown") := by
  have hmain : (parse_command st msg).error =
      some ("未知命令: " ++ tokenLower st msg) := by
    simp only [tokenLower]
    unfold parse_command at hic hv ⊢
    by_cases h1 : pyStartsWith msg st.command_pfx = true
    · by_cases h2 : pyStrip (pyDrop msg (pyLen st.command_pfx)) = ""
      · simp [h1, h2] at hic
      · simp only [h1, h2] at hv ⊢
        simp at hv ⊢
        cases hm : dictGet st.commands
            ((dictGet st.aliases
              (pyLower ((pySplit (pyStrip (pyDrop msg (pyLen st.command_pfx)))).head?.getD ""))).getD
              (pyLower ((pySplit (pyStrip (pyDrop msg (pyLen st.command_pfx)))).head?.getD ""))) with
        | none => simp [hm]
        | some cd => simp [hm] at hv
    · simp [h1] at hic
  refine ⟨⟨hmain, ?_⟩, by decide, by decide, by decide⟩
  rw [hmain]
  simpa using strContains_right "未知命令: " (tokenLower st msg)

theorem c5_unknown_error_witness :
    (parse_command builtinState "!Zzz").error =
      some ("未知命令: " ++ tokenLower builtinState "!Zzz") :=
  ((c5_unknown_error builtinState "!Zzz" (by decide) (by decide)).1).1

/-- C3 counterexample: `register_command` performs no validation, so a call
with an empty name and the out-of-range tier 5 still succeeds (returns
`True`) and takes effect in `commands` and `permissions`. -/
theorem c3_cex :
    (register_command builtinState "" () "" "" [] 5).2 = true ∧
    dictGet (register_command builtinState "" () "" "" [] 5).1.commands "" =
      some { func := (), description := "", usage := "", permission_level := 5 } ∧
    dictGet (register_command builtinState "" () "" "" [] 5).1.permissions "" = some 5 := by
  refine ⟨rfl, by decide, by decide⟩

/-- C3 amended: `register_command` enforces nothing: every call — including
an empty name or a permission tier outside {0,1,2} — succeeds, overwriting
any existing definition of the same name with the new definition and tier. -/
theorem c3_register_always_succeeds {H : Type} (st : CHState H) (name : String)
    (f : H) (de us : String) (al : List String) (p : Int) :
    (register_command st name f de us al p).2 = true ∧
    dictGet (register_command st name f de us al p).1.commands name =
      some { func := f, description := de, usage := us, permission_level := p } ∧
    dictGet (register_command st name f de us al p).1.permissions name = some p := by
  refine ⟨rfl, ?_, ?_⟩ <;> simp [register_command, dictGet_dictSet]

/-- Intermediate state for the C7 counterexample: the built-in registry with
an extra command literally named `"h"` — the same token as the built-in alias
`h → help`. -/
def c7StateA : CHState Unit := (register_command builtinState "h" () "" "" [] 0).1

/-- State after then unregistering `"help"`. -/
def c7StateB : CHState Unit := (unregister_command c7StateA "help").1

/-- C7 counterexample: before the call, the alias `"h"` points to `"help"`;
`unregister_command "help"` succeeds and deletes that alias entry, but the
token `"h"` now falls through the (empty) alias map to itself and resolves to
the still-defined command `"h"` — so an alias lookup that pointed to the
unregistered name does resolve to a still-defined command, refuting the
claim's final universal clause. -/
theorem c7_cex :
    dictGet c7StateA.aliases "h" = some "help" ∧
    (unregister_command c7StateA "help").2 = true ∧
    dictGet c7StateB.aliases "h" = none ∧
    dictGet c7StateB.commands ((dictGet c7StateB.aliases "h").getD "h") ≠ none ∧
    (parse_command c7StateB "!h").valid = true := by
  refine ⟨by decide, by decide, by decide, by decide, by decide⟩

/-- C7 amended: `unregister_command name` returns `False` and leaves the
state untouched when `name` is not registered; when `name` is registered
(and, as on every reachable state, has its permission entry) it succeeds,
removing the definition, the permission entry, and every alias entry mapping
to `name` — afterwards no alias entry maps to `name`, though a former alias
token now resolves to itself and may coincide with another registered
command's name. -/
theorem c7_unregister_spec {H : Type} (st : CHState H) (name : String) :
    (dictGet st.commands name = none → unregister_command st name = (st, false)) ∧
    (∀ cd lv, dictGet st.commands name = some cd →
      dictGet st.permissions name = some lv →
      (unregister_command st name).2 = true ∧
      dictGet (unregister_command st name).1.commands name = none ∧
      dictGet (unregister_command st name).1.permissions name = none ∧
      (∀ a, dictGet (unregister_command st name).1.aliases a ≠ some name)) := by
  constructor
  · intro h
    simp [unregister_command, h]
  · intro cd lv hc hp
    simp only [unregister_command, hc, hp]
    refine ⟨by simp, ?_, ?_, ?_⟩
    · simp [dictGet_ddel]
    · simp [dictGet_ddel]
    · intro a hcontra
      have hf := dictGet_filter hcontra
      simp at hf

theorem c7_unregister_spec_witness :
    unregister_command builtinState "nosuch" = (builtinState, false) ∧
    dictGet (unregister_command builtinState "help").1.commands "help" = none ∧
    (∀ a, dictGet (unregister_command builtinState "help").1.aliases a ≠ some "help") := by
  refine ⟨(c7_unregister_spec builtinState "nosuch").1 (by decide), ?_, ?_⟩
  · exact ((c7_unregister_spec builtinState "help").2
      { func := (), description := "显示帮助信息", usage := "[命令名]",
        permission_level := 0 } 0 (by decide) (by decide)).2.1
  · exact ((c7_unregister_spec builtinState "help").2
      { func := (), description := "显示帮助信息", usage := "[命令名]",
        permission_level := 0 } 0 (by decide) (by decide)).2.2.2

/-- C9: registry consistency.  From construction (which registers the
built-in `help`/`status`/`test` commands) and through every sequence of
`register_command` / `unregister_command` calls, every alias entry maps to a
currently registered command, and `commands` and `permissions` carry exactly
the same keys. -/
theorem c9_registry_consistent {H : Type} (pfx : String) (helpF statusF testF : H)
    (ops : List (RegOp H)) :
    RegistryConsistent (runOps (initState pfx helpF statusF testF) ops) := by
  have h0 := empty_consistent (H := H) pfx
  have h1 := register_preserves h0 "help" helpF "显示帮助信息" "[命令名]" ["h", "帮助"] 0
  have h2 := register_preserves h1 "status" statusF "显示机器人状态" "" ["状态", "stat"] 0
  have h3 := register_preserves h2 "test" testF "测试机器人连接" "" ["测试"] 0
  exact runOps_preserves ops _ h3

theorem send_multiple_go_results (env : SenderEnv) (cid : Option String)
    (msgs : List String) (acc : MultiResult) (m : String) (hm : pyStrip m = "")
    (h : m ∈ msgs ∨ dictGet acc.results m = some false) :
    dictGet (send_multiple_go env cid msgs acc).results m = some false := by
  induction msgs generalizing acc with
  | nil =>
    rcases h with h | h
    · simp at h
    · exact h
  | cons x rest ih =>
    by_cases hx : pyStrip x = ""
    · simp only [send_multiple_go, hx, if_pos]
      apply ih
      by_cases hxm : x = m
      · subst hxm
        right
        simp [dictGet_dictSet]
      · rcases h with h | h
        · rcases List.mem_cons.mp h with h1 | h1
          · exact absurd h1.symm hxm
          · exact Or.inl h1
        · right
          rw [dictGet_dictSet]
          simp [hxm, h]
    · have hxm : ¬ x = m := fun hh => hx (hh ▸ hm)
      simp only [send_multiple_go, hx, if_neg]
      apply ih
      rcases h with h | h
      · rcases List.mem_cons.mp h with h1 | h1
        · exact absurd h1.symm hxm
        · exact Or.inl h1
      · right
        rw [dictGet_dictSet]
        simp [hxm, h]

theorem send_multiple_go_attempts (env : SenderEnv) (cid : Option String)
    (msgs : List String) (acc : MultiResult) (m : String) (hm : pyStrip m = "")
    (h : m ∉ acc.attempts) : m ∉ (send_multiple_go env cid msgs acc).attempts := by
  induction msgs generalizing acc with
  | nil => exact h
  | cons x rest ih =>
    by_cases hx : pyStrip x = ""
    · simp only [send_multiple_go, hx, if_pos]
      exact ih { acc with results := dictSet acc.results x false } h
    · have hxm : ¬ x = m := fun hh => hx (hh ▸ hm)
      simp only [send_multiple_go, hx, if_neg]
      apply ih
      simp only [List.mem_append, List.mem_singleton]
      rintro (h1 | h1)
      · exact h h1
      · exact hxm h1.symm

/-- C8: `send_multiple` walks its input in order; every empty or
whitespace-only entry is recorded as failed in the results dict without
`send_text` ever being invoked for it; and on the input
`["", "  ", "hello"]` (with a resolvable channel) exactly one `send_text`
attempt happens — for `"hello"` — producing exactly one transport call,
while the two blank entries are mapped to `False`. -/
theorem c8_send_multiple :
    (∀ (env : SenderEnv) (msgs : List String) (cid : Option String) (m : String),
      m ∈ msgs → pyStrip m = "" →
      dictGet (send_multiple env msgs cid).results m = some false ∧
      m ∉ (send_multiple env msgs cid).attempts) ∧
    (∀ t : String → String → TransportResult,
      (send_multiple { transport := t, config_channel_id := some "123" }
        ["", "  ", "hello"] none).attempts = ["hello"] ∧
      (send_multiple { transport := t, config_channel_id := some "123" }
        ["", "  ", "hello"] none).transport_log = [("123", "hello")] ∧
      dictGet (send_multiple { transport := t, config_channel_id := some "123" }
        ["", "  ", "hello"] none).results "" = some false ∧
      dictGet (send_multiple { transport := t, config_channel_id := some "123" }
        ["", "  ", "hello"] none).results "  " = some false) := by
  constructor
  · intro env msgs cid m hmem hm
    constructor
    · exact send_multiple_go_results env cid msgs _ m hm (Or.inl hmem)
    · exact send_multiple_go_attempts env cid msgs _ m hm (by simp)
  · intro t
    have h0 : pyStrip "" = "" := rfl
    have h2 : pyStrip "  " = "" := by decide
    have hh : pyStrip "hello" = "hello" := by decide
    have hsend : send_text { transport := t, config_channel_id := some "123" }
        "hello" none =
        (match t "123" "hello" with
         | TransportResult.response code _ => ((code = 0 : Bool), [("123", "hello")])
         | TransportResult.raised _ => (false, [("123", "hello")])) := by
      simp only [send_text, hh]
      rw [if_neg (by decide : ¬ ("123" : String) = ""),
        if_neg (by decide : ¬ ("hello" : String) = "")]
    cases ht : t "123" "hello" with
    | response code msg =>
      refine ⟨?_, ?_, ?_, ?_⟩ <;>
        simp [send_multiple, send_multiple_go, h0, h2, hh, ht, hsend,
          dictGet, dictSet]
    | raised e =>
      refine ⟨?_, ?_, ?_, ?_⟩ <;>
        simp [send_multiple, send_multiple_go, h0, h2, hh, ht, hsend,
          dictGet, dictSet]

theorem c8_send_multiple_witness :
    dictGet (send_multiple
      { transport := fun _ _ => TransportResult.response 0 "",
        config_channel_id := some "123" } ["", "  ", "hello"] none).results "  " =
      some false ∧
    "  " ∉ (send_multiple
      { transport := fun _ _ => TransportResult.response 0 "",
        config_channel_id := some "123" } ["", "  ", "hello"] none).attempts := by
  exact c8_send_multiple.1
    { transport := fun _ _ => TransportResult.response 0 "",
      config_channel_id := some "123" } ["", "  ", "hello"] none "  "
    (by simp) (by decide)
